import Mathlib

/-!
Verification development for the nanb notebook core: the delimiter-based
cell parser (`split_to_cells` in `nanb/main.py`), the content-addressed
cell identity and reload matching (`Cell.id` and `match_cells` in
`nanb/cell.py`), and the execution scheduler of `App` in `nanb/main.py`
(`run_code`, `process_task_queue`, `clear_task_queue`), embedded shallowly:
strings are Lean `String`s (lists of characters), Python line lists are
Lean lists, and the cooperative scheduler is a labelled small-step
transition system over an explicit application state.
-/

/-- Whitespace as recognized by Python `str.strip()` / `str.rstrip()`
restricted to the ASCII whitespace characters (space, tab, newline,
carriage return, vertical tab, form feed). -/
def pyIsSpace (c : Char) : Bool :=
  c == ' ' || c == '\t' || c == '\n' || c == '\r' || c == '\x0B' || c == '\x0C'

/-- Python `str.strip()` on the character list: drop whitespace from both ends. -/
def pyStripData (l : List Char) : List Char :=
  ((l.dropWhile pyIsSpace).reverse.dropWhile pyIsSpace).reverse

/-- Python `str.strip()` on strings. -/
def pyStrip (s : String) : String := String.mk (pyStripData s.data)

/-- Python `str.rstrip()` on the character list: drop trailing whitespace. -/
def pyRstripData (l : List Char) : List Char :=
  (l.reverse.dropWhile pyIsSpace).reverse

/-- Python `str.split("\n")`: split into newline-separated pieces, keeping
empty pieces; the empty string yields one empty piece. -/
def splitNl : List Char → List (List Char)
  | [] => [[]]
  | c :: cs =>
    if c = '\n' then [] :: splitNl cs
    else
      match splitNl cs with
      | [] => [[c]]
      | h :: t => (c :: h) :: t

/-- Python `"\n".join(lines)` on character lists. -/
def joinNlData : List (List Char) → List Char
  | [] => []
  | [l] => l
  | l :: ls => l ++ '\n' :: joinNlData ls

/-- The `Cell` class of `nanb/cell.py`: `cell_type` is the class attribute
(`"markdown"` for `MarkdownCell`, `"code"` for `CodeCell`), and
`__init__(cell_name, source, line_start, line_end)` stores its arguments
and sets `output = ""`.  Line bounds are integers because the parser can
produce `i - 1` at value `-1`. -/
structure Cell where
  cell_type : String
  name : Option String
  source : String
  line_start : Int
  line_end : Int
  output : String
deriving DecidableEq

/-- Modelled from the spec: `hashlib.sha256(x.encode("utf-8")).hexdigest()`
(Python standard library, not part of this repository) — a cryptographic
hash whose collision probability the spec treats as zero, i.e. an injective
fingerprint of its input; modelled as an injective function on strings. -/
def sha256_hexdigest (s : String) : String := s

/-- `Cell.id` of `nanb/cell.py`: the hex digest of the SHA-256 hash of the
cell source with leading/trailing whitespace stripped. -/
def Cell.id (c : Cell) : String := sha256_hexdigest (pyStrip c.source)

/-- The inner `for oc in old_cells: if nc.id() == oc.id(): ...; break` scan
of `match_cells`: the first old cell whose identity equals `ncid`. -/
def findFirstMatch (ncid : String) : List Cell → Option Cell
  | [] => none
  | oc :: rest => if ncid = oc.id then some oc else findFirstMatch ncid rest

/-- `match_cells(old_cells, new_cells)` of `nanb/cell.py`: for each new cell
in order, scan the old cells for the first one with equal identity and copy
its `output` over; the Python code mutates `new_cells` in place, embedded
here as returning the updated new-cell list. -/
def match_cells (old : List Cell) : List Cell → List Cell
  | [] => []
  | nc :: rest =>
    (match findFirstMatch nc.id old with
     | some oc => { nc with output := oc.output }
     | none => nc) :: match_cells old rest

/-- One region tuple `(celltype, cellname, start_line, end_line, src)`
accumulated in `out` by `split_to_cells`. -/
structure Region where
  celltype : String
  cellname : Option String
  line_start : Int
  line_end : Int
  src : String
deriving DecidableEq

/-- The loop state of `split_to_cells`: accumulated regions `out`, buffered
body lines `lines`, and the current region's `start_line`, `celltype`,
`cellname`. -/
structure SplitState where
  out : List Region
  lines : List (List Char)
  start_line : Int
  celltype : String
  cellname : Option String
deriving DecidableEq

/-- The body of `for i, line in enumerate(source.split("\n"))` in
`split_to_cells`: a line starting with `"# ---"` or `"# ==="` closes the
buffered region (if any) and opens a new one (code for `"# ---"`, markdown
for `"# ==="`) named by the trimmed remainder of the line; any other line
is appended to the buffer, after the markdown well-formedness check. -/
def stepLine (i : Nat) (line : List Char) (st : SplitState) : Except String SplitState :=
  if "# ---".data.isPrefixOf line || "# ===".data.isPrefixOf line then
    let out' :=
      if st.lines.isEmpty then st.out
      else st.out ++ [⟨st.celltype, st.cellname, st.start_line, (i : Int) - 1,
                       String.mk (joinNlData st.lines)⟩]
    let nm := pyStripData (line.drop 5)
    Except.ok
      { out := out'
        lines := []
        start_line := (i : Int) + 1
        celltype := if "# ---".data.isPrefixOf line then "code" else "markdown"
        cellname := if nm = [] then none else some (String.mk nm) }
  else
    if st.celltype = "markdown" ∧ line ≠ [] ∧ ¬ "#".data.isPrefixOf line then
      Except.error s!"Markdown cell at line {i} contains non-empty line that doesn\x27t start with #"
    else
      Except.ok { st with lines := st.lines ++ [line] }

/-- The `for i, line in enumerate(...)` loop of `split_to_cells`, processing
lines from index `i` on. -/
def splitLoop (i : Nat) (lns : List (List Char)) (st : SplitState) : Except String SplitState :=
  match lns with
  | [] => Except.ok st
  | l :: ls => do splitLoop (i + 1) ls (← stepLine i l st)

/-- The second loop of `split_to_cells`: turn a region tuple into a
`MarkdownCell` or `CodeCell` (output starts empty per `Cell.__init__`). -/
def mkCell (r : Region) : Except String Cell :=
  if r.celltype = "markdown" then
    Except.ok ⟨"markdown", r.cellname, r.src, r.line_start, r.line_end, ""⟩
  else if r.celltype = "code" then
    Except.ok ⟨"code", r.cellname, r.src, r.line_start, r.line_end, ""⟩
  else
    Except.error s!"Unknown cell type {r.celltype}"

/-- `mkCell` mapped over the region list. -/
def mkCells : List Region → Except String (List Cell)
  | [] => Except.ok []
  | r :: rs => do
    let c ← mkCell r
    let cs ← mkCells rs
    Except.ok (c :: cs)

/-- `split_to_cells(source)` of `nanb/main.py`: right-strip the document,
split on newlines, run the region-accumulating loop (initially
`celltype = "code"`, `cellname = None`, `start_line = 0`), flush the final
buffered region with `line_end = i - 1` for the last loop index `i`, and
build the cells. -/
def split_to_cells (source : String) : Except String (List Cell) := do
  let lns := splitNl (pyRstripData source.data)
  let st ← splitLoop 0 lns ⟨[], [], 0, "code", none⟩
  let lastIdx : Int := (lns.length : Int) - 1
  let regions :=
    if st.lines.isEmpty then st.out
    else st.out ++ [⟨st.celltype, st.cellname, st.start_line, lastIdx - 1,
                     String.mk (joinNlData st.lines)⟩]
  mkCells regions

/-- The `TUICellSegment` widget of `nanb/main.py` as far as the scheduler
touches it: the wrapped `cell`, the reactive `output_text` (initially `""`)
and the reactive `state` string (initially `""`; the scheduler writes
`"PENDING"`, `"RUNNING"` and `""`, where `""` is the idle state). -/
structure TUICellSegment where
  cell : Cell
  output_text : String
  state : String
deriving DecidableEq

/-- The scheduler-relevant state of `App` in `nanb/main.py`: the cell
widgets (indexed by position, so aliasing of one widget from several queue
slots is by index), the `task_queue` contents in FIFO order, and the
control position of the `process_task_queue` consumer loop: `none` between
iterations, `some (i, started)` while it is processing widget `i`, with
`started` the loop-local flag that records whether a first chunk arrived. -/
structure AppState where
  widgets : List TUICellSegment
  task_queue : List Nat
  running : Option (Nat × Bool)
deriving DecidableEq

/-- `App.run_code(w)` of `nanb/main.py`: return immediately if the widget's
cell is not a code cell, otherwise set its state to `"PENDING"` and append
it to the task queue. -/
def run_code (s : AppState) (i : Nat) : AppState :=
  match s.widgets[i]? with
  | none => s
  | some w =>
    if w.cell.cell_type ≠ "code" then s
    else
      { s with
        widgets := s.widgets.set i { w with state := "PENDING" }
        task_queue := s.task_queue ++ [i] }

/-- `App.clear_task_queue()` of `nanb/main.py`: `get_nowait` in a loop until
the queue is empty; nothing else is touched. -/
def clear_task_queue (s : AppState) : AppState :=
  { s with task_queue := [] }

/-- Labels for the scheduler's atomic steps. -/
inductive Event where
  | reqRun (i : Nat)
  | reqRunNoop (i : Nat)
  | startRun (i : Nat)
  | chunk (i : Nat) (res : String)
  | finishRun (i : Nat)
  | flushQueue
deriving DecidableEq

/-- The labelled small-step relation of the cooperative scheduler of
`nanb/main.py`.  `reqRun`/`reqRunNoop` are `App.run_code` on a code /
non-code widget; `startRun` is the head of a `process_task_queue` iteration
(`get` the next widget, clear `output_text`, set `"RUNNING"`); `chunk` is
the arrival of one non-empty output chunk inside the streaming loop (on the
first chunk the loop re-clears `output_text` and re-sets `"RUNNING"`, then
appends); `finishRun` is the tail of the iteration (set state back to
`""`); `flushQueue` is `App.clear_task_queue`. -/
inductive Step : AppState → Event → AppState → Prop where
  | reqRun (s : AppState) (i : Nat) (w : TUICellSegment)
      (hw : s.widgets[i]? = some w) (hc : w.cell.cell_type = "code") :
      Step s (.reqRun i) (run_code s i)
  | reqRunNoop (s : AppState) (i : Nat) (w : TUICellSegment)
      (hw : s.widgets[i]? = some w) (hc : w.cell.cell_type ≠ "code") :
      Step s (.reqRunNoop i) (run_code s i)
  | startRun (s : AppState) (i : Nat) (rest : List Nat) (w : TUICellSegment)
      (hq : s.task_queue = i :: rest) (hr : s.running = none)
      (hw : s.widgets[i]? = some w) :
      Step s (.startRun i)
        { s with
          widgets := s.widgets.set i { w with output_text := "", state := "RUNNING" }
          task_queue := rest
          running := some (i, false) }
  | chunk (s : AppState) (i : Nat) (already : Bool) (res : String) (w : TUICellSegment)
      (hr : s.running = some (i, already)) (hw : s.widgets[i]? = some w)
      (hres : res ≠ "") :
      Step s (.chunk i res)
        { s with
          widgets := s.widgets.set i
            (if already then { w with output_text := w.output_text ++ res }
             else { w with output_text := res, state := "RUNNING" })
          running := some (i, true) }
  | finishRun (s : AppState) (i : Nat) (already : Bool) (w : TUICellSegment)
      (hr : s.running = some (i, already)) (hw : s.widgets[i]? = some w) :
      Step s (.finishRun i)
        { s with
          widgets := s.widgets.set i { w with state := "" }
          running := none }
  | flushQueue (s : AppState) :
      Step s .flushQueue (clear_task_queue s)

/-- A finite execution: a trace of steps from one state to another. -/
inductive Exec : AppState → List Event → AppState → Prop where
  | nil (s : AppState) : Exec s [] s
  | cons {s s₁ s₂ : AppState} {e : Event} {tr : List Event} :
      Step s e s₁ → Exec s₁ tr s₂ → Exec s (e :: tr) s₂

/-- `App.__init__` plus widget construction: one widget per cell, with the
reactive `output_text` and `state` at their initial `""`, an empty
`task_queue`, and the consumer loop idle. -/
def initState (cells : List Cell) : AppState :=
  { widgets := cells.map (fun c => ⟨c, "", ""⟩)
    task_queue := []
    running := none }

/-- Widget indices enqueued by a trace, in order. -/
def enqueues : List Event → List Nat
  | [] => []
  | .reqRun i :: tr => i :: enqueues tr
  | _ :: tr => enqueues tr

/-- Widget indices whose execution was started by a trace, in order. -/
def starts : List Event → List Nat
  | [] => []
  | .startRun i :: tr => i :: starts tr
  | _ :: tr => starts tr

/-- The start/finish skeleton of a trace: `(true, i)` for a start of widget
`i`, `(false, i)` for its completion. -/
def runEvents : List Event → List (Bool × Nat)
  | [] => []
  | .startRun i :: tr => (true, i) :: runEvents tr
  | .finishRun i :: tr => (false, i) :: runEvents tr
  | _ :: tr => runEvents tr

/-- Acceptor for serial, run-to-completion start/finish skeletons: from the
current in-flight widget (if any), a start is legal only when nothing is in
flight, and a finish only of the in-flight widget; returns the in-flight
widget after the skeleton, or `none` on a violation. -/
def serialOk : Option Nat → List (Bool × Nat) → Option (Option Nat)
  | cur, [] => some cur
  | none, (true, i) :: l => serialOk (some i) l
  | some i, (false, j) :: l => if i = j then serialOk none l else none
  | some _, (true, _) :: _ => none
  | none, (false, _) :: _ => none

/-- A concrete code cell used to instantiate theorems. -/
def exCodeCell : Cell := ⟨"code", none, "print(1)", 0, -1, ""⟩

/-- A concrete markdown cell used to instantiate theorems. -/
def exMdCell : Cell := ⟨"markdown", none, "# hi", 1, 0, ""⟩

/-- A concrete old cell carrying accumulated output. -/
def exOldCell : Cell := ⟨"code", none, "x = 1", 0, 0, "out1"⟩

/-- A concrete freshly parsed cell whose stripped source equals
`exOldCell`'s. -/
def exNewCell : Cell := ⟨"code", some "moved", "  x = 1  ", 7, 9, ""⟩

theorem set_of_getElem? {α : Type} :
    ∀ {l : List α} {i : Nat} {a : α}, l[i]? = some a → l.set i a = l
  | [], i, a, h => by simp at h
  | b :: l, 0, a, h => by
    simp at h
    simp [h]
  | b :: l, i + 1, a, h => by
    simp at h
    simpa using set_of_getElem? h

theorem countP_le_one_of_unique {α : Type} (p : α → Bool) :
    ∀ (l : List α), (∀ i j (hi : i < l.length) (hj : j < l.length),
      p (l.get ⟨i, hi⟩) → p (l.get ⟨j, hj⟩) → i = j) → l.countP p ≤ 1
  | [], _ => by simp
  | a :: l, h => by
    rw [List.countP_cons]
    by_cases hpa : p a
    · have hzero : l.countP p = 0 := by
        rw [List.countP_eq_zero]
        intro x hx hpx
        obtain ⟨⟨k, hk⟩, hget⟩ := List.mem_iff_get.mp hx
        have hget2 : l[k] = x := hget
        have hcontra : k + 1 = 0 :=
          h (k + 1) 0 (Nat.succ_lt_succ hk) (Nat.succ_pos _)
            (by simpa [hget2] using hpx) (by simpa using hpa)
        exact absurd hcontra (Nat.succ_ne_zero k)
      rw [hzero]
      simp [hpa]
    · have hrec : l.countP p ≤ 1 :=
        countP_le_one_of_unique p l (fun i j hi hj hpi hpj => by
          have hs := h (i + 1) (j + 1) (Nat.succ_lt_succ hi) (Nat.succ_lt_succ hj)
            (by simpa using hpi) (by simpa using hpj)
          omega)
      simpa [hpa] using hrec

theorem run_code_of_noncode {s : AppState} {i : Nat} {w : TUICellSegment}
    (hw : s.widgets[i]? = some w) (hc : w.cell.cell_type ≠ "code") :
    run_code s i = s := by
  simp [run_code, hw, hc]

theorem run_code_of_code {s : AppState} {i : Nat} {w : TUICellSegment}
    (hw : s.widgets[i]? = some w) (hc : w.cell.cell_type = "code") :
    run_code s i =
      { s with
        widgets := s.widgets.set i { w with state := "PENDING" }
        task_queue := s.task_queue ++ [i] } := by
  simp [run_code, hw, hc]

/-- The global mutual-exclusion invariant: any widget in state `"RUNNING"`
is the one the consumer loop currently holds. -/
def RunningHeld (s : AppState) : Prop :=
  ∀ i w, s.widgets[i]? = some w → w.state = "RUNNING" → ∃ b, s.running = some (i, b)

theorem step_runningHeld {s s' : AppState} {e : Event}
    (h : Step s e s') (hs : RunningHeld s) : RunningHeld s' := by
  cases h with
  | reqRun i w hw hc =>
    rw [run_code_of_code hw hc]
    intro j w' hj hr
    simp only [List.getElem?_set] at hj
    split at hj
    · split at hj
      · cases hj
        simp at hr
      · cases hj
    · exact hs j w' hj hr
  | reqRunNoop i w hw hc =>
    rw [run_code_of_noncode hw hc]
    exact hs
  | startRun i rest w hq hr hw =>
    intro j w' hj hrun
    by_cases hij : i = j
    · exact ⟨false, by rw [← hij]⟩
    · simp only [List.getElem?_set_ne hij] at hj
      obtain ⟨b, hb⟩ := hs j w' hj hrun
      rw [hr] at hb
      cases hb
  | chunk i already res w hr hw hres =>
    intro j w' hj hrun
    by_cases hij : i = j
    · exact ⟨true, by rw [← hij]⟩
    · simp only [List.getElem?_set_ne hij] at hj
      obtain ⟨b, hb⟩ := hs j w' hj hrun
      rw [hr] at hb
      cases hb
      exact absurd rfl hij
  | finishRun i already w hr hw =>
    intro j w' hj hrun
    simp only [List.getElem?_set] at hj
    split at hj
    · split at hj
      · cases hj
        simp at hrun
      · cases hj
    · obtain ⟨b, hb⟩ := hs j w' hj hrun
      rw [hr] at hb
      simp only [Option.some.injEq, Prod.mk.injEq] at hb
      simp_all
  | flushQueue =>
    exact hs

theorem exec_runningHeld {s s' : AppState} {tr : List Event}
    (h : Exec s tr s') (hs : RunningHeld s) : RunningHeld s' := by
  induction h with
  | nil => exact hs
  | cons hstep _ ih => exact ih (step_runningHeld hstep hs)

theorem initState_runningHeld (cells : List Cell) : RunningHeld (initState cells) := by
  intro i w hw hr
  simp [initState, List.getElem?_map] at hw
  obtain ⟨c, _, hc⟩ := hw
  rw [← hc] at hr
  simp at hr

/-- No scheduler step ever touches the `Cell` objects the widgets wrap. -/
theorem step_cells_fixed {s s' : AppState} {e : Event} (h : Step s e s') :
    s'.widgets.map (fun w => w.cell) = s.widgets.map (fun w => w.cell) := by
  cases h with
  | reqRun i w hw hc =>
    rw [run_code_of_code hw hc]
    show (s.widgets.set i _).map _ = _
    rw [List.map_set]
    exact set_of_getElem? (by rw [List.getElem?_map, hw]; rfl)
  | reqRunNoop i w hw hc =>
    rw [run_code_of_noncode hw hc]
  | startRun i rest w hq hr hw =>
    show (s.widgets.set i _).map _ = _
    rw [List.map_set]
    exact set_of_getElem? (by rw [List.getElem?_map, hw]; rfl)
  | chunk i already res w hr hw hres =>
    show (s.widgets.set i _).map _ = _
    rw [List.map_set]
    refine set_of_getElem? ?_
    rw [List.getElem?_map, hw]
    cases already <;> rfl
  | finishRun i already w hr hw =>
    show (s.widgets.set i _).map _ = _
    rw [List.map_set]
    exact set_of_getElem? (by rw [List.getElem?_map, hw]; rfl)
  | flushQueue =>
    rfl

theorem exec_cells_fixed {s s' : AppState} {tr : List Event}
    (h : Exec s tr s') :
    s'.widgets.map (fun w => w.cell) = s.widgets.map (fun w => w.cell) := by
  induction h with
  | nil => rfl
  | cons hstep _ ih => rw [ih, step_cells_fixed hstep]

/-- FIFO bookkeeping: over a flush-free trace, the started indices followed
by the still-queued indices are exactly the initial queue followed by the
enqueued indices, in order. -/
theorem exec_fifo {s s' : AppState} {tr : List Event}
    (h : Exec s tr s') (hnf : Event.flushQueue ∉ tr) :
    starts tr ++ s'.task_queue = s.task_queue ++ enqueues tr := by
  induction h with
  | nil => simp [starts, enqueues]
  | cons hstep hexec ih =>
    have hnf' := fun hm => hnf (List.mem_cons_of_mem _ hm)
    cases hstep with
    | reqRun i w hw hc =>
      simp only [starts, enqueues]
      rw [ih hnf', run_code_of_code hw hc]
      simp
    | reqRunNoop i w hw hc =>
      simp only [starts, enqueues]
      rw [ih hnf', run_code_of_noncode hw hc]
    | startRun i rest w hq hr hw =>
      simp only [starts, enqueues]
      rw [hq, List.cons_append, ih hnf']
      rfl
    | chunk i already res w hr hw hres =>
      simp only [starts, enqueues]
      exact ih hnf'
    | finishRun i already w hr hw =>
      simp only [starts, enqueues]
      exact ih hnf'
    | flushQueue =>
      exact absurd (List.mem_cons_self _ _) hnf

/-- Serial run-to-completion: the start/finish skeleton of any trace is
accepted by the one-at-a-time automaton, tracking the in-flight widget. -/
theorem exec_serial {s s' : AppState} {tr : List Event} (h : Exec s tr s') :
    serialOk (s.running.map Prod.fst) (runEvents tr) =
      some (s'.running.map Prod.fst) := by
  induction h with
  | nil => simp [runEvents, serialOk]
  | cons hstep hexec ih =>
    cases hstep with
    | reqRun i w hw hc =>
      simp only [runEvents]
      rw [← ih, run_code_of_code hw hc]
    | reqRunNoop i w hw hc =>
      simp only [runEvents]
      rw [← ih, run_code_of_noncode hw hc]
    | startRun i rest w hq hr hw =>
      simp only [runEvents]
      rw [hr]
      show serialOk (some i) (runEvents _) = _
      exact ih
    | chunk i already res w hr hw hres =>
      simp only [runEvents]
      rw [hr]
      exact ih
    | finishRun i already w hr hw =>
      simp only [runEvents]
      rw [hr]
      show (if i = i then serialOk none (runEvents _) else none) = _
      rw [if_pos rfl]
      exact ih
    | flushQueue =>
      simp only [runEvents]
      exact ih

/-- `match_cells` acts pointwise: the cell at position `i` of the result is
the cell at position `i` of the input, with output copied from the first
identity match in `old` (if any). -/
theorem match_cells_getElem? (old nw : List Cell) (i : Nat) :
    (match_cells old nw)[i]? = (nw[i]?).map (fun nc =>
      match findFirstMatch nc.id old with
      | some oc => { nc with output := oc.output }
      | none => nc) := by
  induction nw generalizing i with
  | nil => simp [match_cells]
  | cons nc rest ih =>
    cases i with
    | zero => simp [match_cells]
    | succ n => simpa [match_cells] using ih n

theorem findFirstMatch_eq_none {x : String} {old : List Cell} :
    findFirstMatch x old = none ↔ ∀ oc ∈ old, x ≠ oc.id := by
  induction old with
  | nil => simp [findFirstMatch]
  | cons oc rest ih =>
    by_cases h : x = oc.id
    · simp [findFirstMatch, h]
    · simp [findFirstMatch, h, ih]

theorem findFirstMatch_first {x : String} {old : List Cell} {k : Nat} {oc : Cell} :
    old[k]? = some oc → x = oc.id →
    (∀ j oc', j < k → old[j]? = some oc' → x ≠ oc'.id) →
    findFirstMatch x old = some oc := by
  induction old generalizing k with
  | nil => intro hk; simp at hk
  | cons a rest ih =>
    intro hk hid hfirst
    cases k with
    | zero =>
      simp at hk
      subst hk
      simp [findFirstMatch, hid]
    | succ n =>
      have hne : x ≠ a.id := hfirst 0 a (Nat.succ_pos n) (by simp)
      simp at hk
      rw [findFirstMatch, if_neg hne]
      exact ih hk hid
        (fun j oc' hj hget => hfirst (j + 1) oc' (Nat.succ_lt_succ hj) (by simpa using hget))

theorem dropWhile_eq_nil_of_all {α : Type} {p : α → Bool} {l : List α}
    (h : ∀ c ∈ l, p c) : l.dropWhile p = [] := by
  induction l with
  | nil => rfl
  | cons a l ih =>
    rw [List.dropWhile_cons, if_pos (h a (List.mem_cons_self a l))]
    exact ih (fun c hc => h c (List.mem_cons_of_mem _ hc))

/-- Stripping is unaffected by whitespace padding on either side. -/
theorem pyStripData_pad (l pre suf : List Char)
    (hpre : ∀ c ∈ pre, pyIsSpace c) (hsuf : ∀ c ∈ suf, pyIsSpace c) :
    pyStripData (pre ++ l ++ suf) = pyStripData l := by
  unfold pyStripData
  rw [List.append_assoc, List.dropWhile_append_of_pos hpre, List.dropWhile_append]
  by_cases h : (l.dropWhile pyIsSpace).isEmpty
  · rw [if_pos h, dropWhile_eq_nil_of_all hsuf]
    rw [List.isEmpty_iff] at h
    rw [h]
  · rw [if_neg h, List.reverse_append,
      List.dropWhile_append_of_pos (fun c hc => hsuf c (List.mem_reverse.mp hc))]

/-- Claim C5: a cell's identity is a pure function of its source with
leading/trailing whitespace stripped — two cells have equal identity
exactly when their stripped sources are equal as strings (regardless of
name, position, kind, or output; the "interior edit changes identity"
direction reads the iff right-to-left, with SHA-256 collisions treated as
impossible per the injective hash model), and padding a source with
leading/trailing whitespace leaves the identity unchanged. -/
theorem spec_C5 (c₁ c₂ : Cell) (pre suf : List Char)
    (hpre : ∀ c ∈ pre, pyIsSpace c) (hsuf : ∀ c ∈ suf, pyIsSpace c) :
    (Cell.id c₁ = Cell.id c₂ ↔ pyStrip c₁.source = pyStrip c₂.source) ∧
    Cell.id { c₁ with source := String.mk (pre ++ c₁.source.data ++ suf) } = Cell.id c₁ := by
  constructor
  · exact Iff.rfl
  · show sha256_hexdigest (pyStrip (String.mk _)) = _
    unfold sha256_hexdigest Cell.id pyStrip
    exact congrArg String.mk (pyStripData_pad c₁.source.data pre suf hpre hsuf)

/-- Witness for C5 at concrete cells: `exNewCell` (source `"  x = 1  "`,
markdown-free padding) and `exOldCell` (source `"x = 1"`). -/
theorem spec_C5_witness :
    ((Cell.id exNewCell = Cell.id exOldCell ↔
        pyStrip exNewCell.source = pyStrip exOldCell.source) ∧
      Cell.id { exNewCell with source := String.mk ([' '] ++ exNewCell.source.data ++ ['\n']) } =
        Cell.id exNewCell) :=
  spec_C5 exNewCell exOldCell [' '] ['\n'] (by decide) (by decide)

/-- Claim C1: `match_cells` gives each new cell, in order, the output of
the first old cell whose identity equals its own; an unmatched new cell is
left unchanged (hence keeps its empty output when freshly parsed); matched
old cells are never removed from the candidate pool, so every new cell
sharing the matched identity receives that same old cell's output; and the
output assigned at a position depends only on the cell's identity and prior
output, not on its position in either sequence. -/
theorem spec_C1 (old nw : List Cell) (i : Nat) (nc : Cell) (hi : nw[i]? = some nc) :
    (∀ (k : Nat) (oc : Cell), old[k]? = some oc → nc.id = oc.id →
      (∀ (j : Nat) (oc' : Cell), j < k → old[j]? = some oc' → nc.id ≠ oc'.id) →
      (match_cells old nw)[i]? = some { nc with output := oc.output } ∧
      (∀ (j : Nat) (nc' : Cell), nw[j]? = some nc' → nc'.id = nc.id →
        (match_cells old nw)[j]? = some { nc' with output := oc.output })) ∧
    ((∀ oc ∈ old, nc.id ≠ oc.id) → (match_cells old nw)[i]? = some nc) ∧
    (∀ (nw₂ : List Cell) (i₂ : Nat) (nc₂ : Cell), nw₂[i₂]? = some nc₂ →
      nc₂.id = nc.id → nc₂.output = nc.output →
      ((match_cells old nw₂)[i₂]?).map (fun c => c.output) =
        ((match_cells old nw)[i]?).map (fun c => c.output)) := by
  refine ⟨?_, ?_, ?_⟩
  · intro k oc hk hid hfirst
    have hf : findFirstMatch nc.id old = some oc := findFirstMatch_first hk hid hfirst
    constructor
    · rw [match_cells_getElem?, hi]
      simp [hf]
    · intro j nc' hj hid'
      have hf' : findFirstMatch nc'.id old = some oc := by rw [hid']; exact hf
      rw [match_cells_getElem?, hj]
      simp [hf']
  · intro hnone
    have hf : findFirstMatch nc.id old = none := findFirstMatch_eq_none.mpr hnone
    rw [match_cells_getElem?, hi]
    simp [hf]
  · intro nw₂ i₂ nc₂ h₂ hid₂ hout₂
    rw [match_cells_getElem?, match_cells_getElem?, hi, h₂]
    simp only [Option.map_some']
    rw [hid₂]
    cases hmatch : findFirstMatch nc.id old <;> simp [hmatch, hout₂]

/-- Witness for C1: the moved, whitespace-padded `exNewCell` recovers
`exOldCell`'s output `"out1"`, and the unmatched `exMdCell` keeps its empty
output. -/
theorem spec_C1_witness :
    (match_cells [exOldCell] [exNewCell])[0]? = some { exNewCell with output := "out1" } ∧
    (match_cells [exOldCell] [exMdCell])[0]? = some exMdCell :=
  ⟨((spec_C1 [exOldCell] [exNewCell] 0 exNewCell (by simp)).1 0 exOldCell (by simp) (by decide)
      (fun j _ hj _ => absurd hj (Nat.not_lt_zero j))).1,
    (spec_C1 [exOldCell] [exMdCell] 0 exMdCell (by simp)).2.1 (by decide)⟩

/-- Claim C2 (amended): `clear_task_queue` leaves the run queue empty,
discarding every queued-but-not-yet-running cell without executing it, and
leaves every widget — its state *and* its accumulated output — exactly as
it was; it does not reset non-Idle cells to Idle. -/
theorem spec_C2 (s : AppState) :
    (clear_task_queue s).task_queue = [] ∧
    (clear_task_queue s).widgets = s.widgets ∧
    (clear_task_queue s).running = s.running :=
  ⟨rfl, rfl, rfl⟩

/-- Counterexample to claim C2 as stated: after one `run_code` request on a
one-code-cell notebook the widget is `"PENDING"` (non-Idle; the idle state
is `""`) and queued; `clear_task_queue` empties the queue but the widget
remains `"PENDING"` instead of being reset to Idle. -/
theorem spec_C2_counterexample :
    (clear_task_queue (run_code (initState [exCodeCell]) 0)).task_queue = [] ∧
    (clear_task_queue (run_code (initState [exCodeCell]) 0)).widgets.map
        (fun w => w.state) = ["PENDING"] ∧
    ("PENDING" : String) ≠ "" := by
  refine ⟨rfl, ?_, by decide⟩
  rfl

/-- Claim C7: at every reachable instant of any execution from an initial
notebook state, at most one widget across the whole notebook is in state
`"RUNNING"`. -/
theorem spec_C7 (cells : List Cell) (tr : List Event) (s : AppState)
    (h : Exec (initState cells) tr s) :
    s.widgets.countP (fun w => w.state == "RUNNING") ≤ 1 := by
  have inv := exec_runningHeld h (initState_runningHeld cells)
  refine countP_le_one_of_unique _ _ ?_
  intro i j hi hj hpi hpj
  obtain ⟨b, hb⟩ := inv i (s.widgets.get ⟨i, hi⟩)
    (List.getElem?_eq_getElem hi) (eq_of_beq hpi)
  obtain ⟨b', hb'⟩ := inv j (s.widgets.get ⟨j, hj⟩)
    (List.getElem?_eq_getElem hj) (eq_of_beq hpj)
  have hsome := hb.symm.trans hb'
  injection hsome with hpair
  exact congrArg Prod.fst hpair

/-- Witness for C7: a one-request trace on a single code cell. -/
theorem spec_C7_witness :
    (run_code (initState [exCodeCell]) 0).widgets.countP
      (fun w => w.state == "RUNNING") ≤ 1 :=
  spec_C7 [exCodeCell] [Event.reqRun 0] (run_code (initState [exCodeCell]) 0)
    (Exec.cons (Step.reqRun (initState [exCodeCell]) 0 ⟨exCodeCell, "", ""⟩ rfl rfl)
      (Exec.nil _))

/-- Claim C8: `run_code` on a non-code widget is a silent no-op (no state
change, nothing enqueued); on a code widget it sets state `"PENDING"` and
appends the widget to the FIFO queue; and along any trace from an initial
state, flush-free, the started widgets followed by the still-queued ones
are exactly the enqueued widgets in enqueue order, while the start/finish
skeleton is strictly serial: every started run finishes before the next
run starts. -/
theorem spec_C8 :
    (∀ (s : AppState) (i : Nat) (w : TUICellSegment), s.widgets[i]? = some w →
      w.cell.cell_type ≠ "code" → run_code s i = s) ∧
    (∀ (s : AppState) (i : Nat) (w : TUICellSegment), s.widgets[i]? = some w →
      w.cell.cell_type = "code" →
      run_code s i =
        { s with
          widgets := s.widgets.set i { w with state := "PENDING" }
          task_queue := s.task_queue ++ [i] }) ∧
    (∀ (cells : List Cell) (tr : List Event) (s : AppState),
      Exec (initState cells) tr s →
      (Event.flushQueue ∉ tr → starts tr ++ s.task_queue = enqueues tr) ∧
      serialOk none (runEvents tr) = some (s.running.map Prod.fst)) := by
  refine ⟨fun s i w hw hc => run_code_of_noncode hw hc,
    fun s i w hw hc => run_code_of_code hw hc,
    fun cells tr s h => ⟨fun hnf => ?_, ?_⟩⟩
  · have hf := exec_fifo h hnf
    simpa [initState] using hf
  · have hs := exec_serial h
    simpa [initState] using hs

/-- Witness for C8: the markdown widget request is a no-op, one code
request enqueues with state `"PENDING"`, and the FIFO/serial bookkeeping
holds on the concrete one-request trace. -/
theorem spec_C8_witness :
    (run_code (initState [exMdCell]) 0 = initState [exMdCell]) ∧
    (run_code (initState [exCodeCell]) 0 =
      { initState [exCodeCell] with
        widgets := (initState [exCodeCell]).widgets.set 0 ⟨exCodeCell, "", "PENDING"⟩
        task_queue := ([] : List Nat) ++ [0] }) ∧
    (starts [Event.reqRun 0] ++ (run_code (initState [exCodeCell]) 0).task_queue =
      enqueues [Event.reqRun 0]) ∧
    (serialOk none (runEvents [Event.reqRun 0]) =
      some ((run_code (initState [exCodeCell]) 0).running.map Prod.fst)) := by
  have hexec : Exec (initState [exCodeCell]) [Event.reqRun 0]
      (run_code (initState [exCodeCell]) 0) :=
    Exec.cons (Step.reqRun (initState [exCodeCell]) 0 ⟨exCodeCell, "", ""⟩ rfl rfl)
      (Exec.nil _)
  have hmain := spec_C8
  refine ⟨hmain.1 (initState [exMdCell]) 0 ⟨exMdCell, "", ""⟩ rfl (by decide), ?_, ?_, ?_⟩
  · exact hmain.2.1 (initState [exCodeCell]) 0 ⟨exCodeCell, "", ""⟩ rfl rfl
  · exact (hmain.2.2 [exCodeCell] [Event.reqRun 0] _ hexec).1 (by decide)
  · exact (hmain.2.2 [exCodeCell] [Event.reqRun 0] _ hexec).2

theorem mkCell_output {r : Region} {c : Cell} (h : mkCell r = Except.ok c) :
    c.output = "" := by
  unfold mkCell at h
  split at h
  · cases h
    rfl
  · split at h
    · cases h
      rfl
    · cases h

theorem mkCells_output : ∀ {rs : List Region} {cs : List Cell},
    mkCells rs = Except.ok cs → ∀ c ∈ cs, c.output = ""
  | [], cs, h => by
    simp only [mkCells] at h
    cases h
    intro c hc
    simp at hc
  | r :: rs, cs, h => by
    unfold mkCells at h
    cases hc : mkCell r with
    | error e =>
      rw [hc] at h
      simp [Bind.bind, Except.bind] at h
    | ok c =>
      rw [hc] at h
      cases hcs : mkCells rs with
      | error e =>
        rw [hcs] at h
        simp [Bind.bind, Except.bind] at h
      | ok cs' =>
        rw [hcs] at h
        simp only [Bind.bind, Except.bind, pure, Except.pure, Except.ok.injEq] at h
        subst h
        intro x hx
        rcases List.mem_cons.mp hx with h1 | h2
        · subst h1
          exact mkCell_output hc
        · exact mkCells_output hcs x h2

theorem findFirstMatch_mem {x : String} : ∀ {old : List Cell} {oc : Cell},
    findFirstMatch x old = some oc → oc ∈ old
  | [], oc, h => by simp [findFirstMatch] at h
  | a :: rest, oc, h => by
    rw [findFirstMatch] at h
    by_cases hid : x = a.id
    · rw [if_pos hid] at h
      cases h
      exact List.mem_cons_self a rest
    · rw [if_neg hid] at h
      exact List.mem_cons_of_mem _ (findFirstMatch_mem h)

theorem match_cells_output_empty (old : List Cell) (hold : ∀ oc ∈ old, oc.output = "") :
    ∀ (nw : List Cell), (∀ nc ∈ nw, nc.output = "") →
      ∀ c ∈ match_cells old nw, c.output = ""
  | [], _, c, hc => by simp [match_cells] at hc
  | nc :: rest, hnw, c, hc => by
    rw [match_cells] at hc
    rcases List.mem_cons.mp hc with h1 | h2
    · cases hm : findFirstMatch nc.id old with
      | none =>
        rw [hm] at h1
        rw [h1]
        exact hnw nc (List.mem_cons_self nc rest)
      | some oc =>
        rw [hm] at h1
        subst h1
        exact hold oc (findFirstMatch_mem hm)
    · exact match_cells_output_empty old hold rest
        (fun nc' h' => hnw nc' (List.mem_cons_of_mem _ h')) c h2

/-- Claim C9: the execution pipeline never writes `Cell.output`: every cell
produced by the parser has empty output; no scheduler step modifies any
widget's wrapped `Cell` (streamed chunks go only to the widget's
`output_text`), so the cells of any reachable state are exactly the parsed
cells, outputs still empty; and `match_cells` between sequences whose cells
all have empty output can only copy empty strings. -/
theorem spec_C9 :
    (∀ (src : String) (cells : List Cell), split_to_cells src = Except.ok cells →
      ∀ c ∈ cells, c.output = "") ∧
    (∀ (cells : List Cell) (tr : List Event) (s : AppState),
      Exec (initState cells) tr s → s.widgets.map (fun w => w.cell) = cells) ∧
    (∀ (old nw : List Cell), (∀ oc ∈ old, oc.output = "") →
      (∀ nc ∈ nw, nc.output = "") → ∀ c ∈ match_cells old nw, c.output = "") := by
  refine ⟨?_, ?_, ?_⟩
  · intro src cells h
    unfold split_to_cells at h
    dsimp only at h
    cases hs : splitLoop 0 (splitNl (pyRstripData src.data)) ⟨[], [], 0, "code", none⟩ with
    | error e =>
      rw [hs] at h
      simp [Bind.bind, Except.bind] at h
    | ok st =>
      rw [hs] at h
      simp only [Bind.bind, Except.bind] at h
      exact mkCells_output h
  · intro cells tr s h
    rw [exec_cells_fixed h]
    simp only [initState, List.map_map]
    exact List.map_id'' (fun c => rfl) cells
  · exact fun old nw hold hnw => match_cells_output_empty old hold nw hnw

/-- Witness for C9 at a concrete document, the empty trace, and the
concrete match of `exNewCell` against `exOldCell`-with-empty-output. -/
theorem spec_C9_witness :
    (∀ c ∈ [Cell.mk "code" none "x = 1" 0 (-1) ""], c.output = "") ∧
    ((initState [exCodeCell]).widgets.map (fun w => w.cell) = [exCodeCell]) ∧
    (∀ c ∈ match_cells [⟨"code", none, "x = 1", 0, 0, ""⟩] [exNewCell], c.output = "") :=
  ⟨spec_C9.1 "x = 1" _ rfl,
    spec_C9.2.1 [exCodeCell] [] _ (Exec.nil _),
    spec_C9.2.2 [⟨"code", none, "x = 1", 0, 0, ""⟩] [exNewCell]
      (by decide) (by decide)⟩

/-- Claim C10: requesting a run on a code widget that is already
`"PENDING"` or `"RUNNING"` enqueues it again (`run_code` has no guard on
the current state), so one widget can occupy several queue slots at once
(reachably, via two requests); each `startRun` consumes exactly one queue
slot, clearing the widget's displayed output at the start of the run; and
over flush-free traces each widget's starts plus its remaining queue slots
equal its requests — one execution per request. -/
theorem spec_C10 :
    (∀ (s : AppState) (i : Nat) (w : TUICellSegment), s.widgets[i]? = some w →
      w.cell.cell_type = "code" → (w.state = "PENDING" ∨ w.state = "RUNNING") →
      run_code s i =
        { s with
          widgets := s.widgets.set i { w with state := "PENDING" }
          task_queue := s.task_queue ++ [i] }) ∧
    (∃ s : AppState, Exec (initState [exCodeCell]) [Event.reqRun 0, Event.reqRun 0] s ∧
      s.task_queue = [0, 0]) ∧
    (∀ (s s' : AppState) (i : Nat), Step s (Event.startRun i) s' →
      s.task_queue.head? = some i ∧ s'.task_queue = s.task_queue.tail ∧
      (s'.widgets[i]?).map (fun w => w.output_text) = some "" ∧
      (s'.widgets[i]?).map (fun w => w.state) = some "RUNNING") ∧
    (∀ (cells : List Cell) (tr : List Event) (s : AppState) (i : Nat),
      Exec (initState cells) tr s → Event.flushQueue ∉ tr →
      (starts tr).count i + s.task_queue.count i = (enqueues tr).count i) := by
  refine ⟨fun s i w hw hc _ => run_code_of_code hw hc, ?_, ?_, ?_⟩
  · refine ⟨run_code (run_code (initState [exCodeCell]) 0) 0, ?_, rfl⟩
    exact Exec.cons (Step.reqRun (initState [exCodeCell]) 0 ⟨exCodeCell, "", ""⟩ rfl rfl)
      (Exec.cons
        (Step.reqRun (run_code (initState [exCodeCell]) 0) 0
          ⟨exCodeCell, "", "PENDING"⟩ rfl rfl)
        (Exec.nil _))
  · intro s s' i hstep
    cases hstep with
    | startRun i rest w hq hr hw =>
      have hlen : i < s.widgets.length := by
        rcases List.getElem?_eq_some.mp hw with ⟨hl, _⟩
        exact hl
      refine ⟨by rw [hq]; rfl, by rw [hq]; rfl, ?_, ?_⟩
      · show ((s.widgets.set i _)[i]?).map _ = _
        rw [List.getElem?_set_self hlen]
        rfl
      · show ((s.widgets.set i _)[i]?).map _ = _
        rw [List.getElem?_set_self hlen]
        rfl
  · intro cells tr s i h hnf
    have hf := exec_fifo h hnf
    simp only [initState] at hf
    have hcount := congrArg (fun l => l.count i) hf
    simpa [List.count_append] using hcount

/-- Witness for C10: the re-request on the already-pending widget, the
concrete first `startRun` step, and the request/start/queue count equation
on the one-request trace. -/
theorem spec_C10_witness :
    (run_code (run_code (initState [exCodeCell]) 0) 0 =
      { run_code (initState [exCodeCell]) 0 with
        widgets := (run_code (initState [exCodeCell]) 0).widgets.set 0
          ⟨exCodeCell, "", "PENDING"⟩
        task_queue := (run_code (initState [exCodeCell]) 0).task_queue ++ [0] }) ∧
    ((run_code (initState [exCodeCell]) 0).task_queue.head? = some 0) ∧
    ((starts [Event.reqRun 0]).count 0 +
        (run_code (initState [exCodeCell]) 0).task_queue.count 0 =
      (enqueues [Event.reqRun 0]).count 0) := by
  have hstart := (spec_C10.2.2.1 (run_code (initState [exCodeCell]) 0)
    { run_code (initState [exCodeCell]) 0 with
      widgets := (run_code (initState [exCodeCell]) 0).widgets.set 0
        ⟨exCodeCell, "", "RUNNING"⟩
      task_queue := []
      running := some (0, false) } 0
    (Step.startRun (run_code (initState [exCodeCell]) 0) 0 []
      ⟨exCodeCell, "", "PENDING"⟩ rfl rfl rfl))
  refine ⟨spec_C10.1 (run_code (initState [exCodeCell]) 0) 0
      ⟨exCodeCell, "", "PENDING"⟩ rfl rfl (Or.inl rfl), hstart.1, ?_⟩
  exact spec_C10.2.2.2 [exCodeCell] [Event.reqRun 0] _ 0
    (Exec.cons (Step.reqRun (initState [exCodeCell]) 0 ⟨exCodeCell, "", ""⟩ rfl rfl)
      (Exec.nil _)) (by decide)

/-- Claim C3 (code bug): the parser never recognizes `"# %%%"` — the
document `"# %%%\n# hi"` parses to a single unnamed *code* cell with the
would-be delimiter swallowed into its body, instead of opening a Markdown
region; the implemented markdown delimiter is the prefix `"# ==="` (see the
divergence notes: the repository's own `readme_example.py` opens with
`"# %%%"`). -/
theorem spec_C3_eval :
    split_to_cells "# %%%\n# hi" =
      Except.ok [⟨"code", none, "# %%%\n# hi", 0, 0, ""⟩] ∧
    ∀ c ∈ [Cell.mk "code" none "# %%%\n# hi" 0 0 ""], c.cell_type ≠ "markdown" := by
  exact ⟨rfl, by decide⟩

/-- Claim C4 (code bug): markdown body lines are retained byte-for-byte —
the markdown region body `"# hi"` (under the implemented `"# ==="`
delimiter) is stored as `"# hi"`, not as the de-commented `" hi"` the spec
describes. -/
theorem spec_C4_eval :
    split_to_cells "# ===\n# hi" =
      Except.ok [⟨"markdown", none, "# hi", 1, 0, ""⟩] ∧
    ("# hi" : String) ≠ " hi" := by
  exact ⟨rfl, by decide⟩

/-- Claim C6 (code bug): recorded line ranges are neither 1-based with
`line_start` = delimiter index + 2 nor a partition: the single-line document
`"x = 1"` yields the range `0 .. -1`, which covers no line at all, and in
`"x\n# --- a\ny"` the final cell gets `line_start = 2` (the 0-based body
index, i.e. delimiter index + 1) with `line_end = 1 < line_start`, again
excluding its own body line. -/
theorem spec_C6_eval :
    split_to_cells "x = 1" = Except.ok [⟨"code", none, "x = 1", 0, -1, ""⟩] ∧
    split_to_cells "x\n# --- a\ny" =
      Except.ok [⟨"code", none, "x", 0, 0, ""⟩, ⟨"code", some "a", "y", 2, 1, ""⟩] := by
  exact ⟨rfl, rfl⟩
